import Mathlib

/-!
Shallow embedding of the mcp-cli sources:
  src/commands/installServerForClient.ts
  src/utils/runtime.ts
JavaScript objects keyed by strings are embedded as association lists
of string/value pairs, which keeps insertion order the way JS objects do.
JavaScript property assignment, property lookup and object spread are
embedded below as setKey, getKey and spread2.
-/

namespace McpCli

/-- JS substring test on lists of characters: true when pat occurs inside s. -/
def containsSubL (pat : List Char) : List Char → Bool
  | [] => pat.isEmpty
  | c :: t => pat.isPrefixOf (c :: t) || containsSubL pat t

/-- Embedding of the JS expression s.includes pat used in runtime.ts. -/
def containsSub (s pat : String) : Bool :=
  containsSubL pat.toList s.toList

/-- JS object property assignment m[k] = v: replaces the value at key k if
present, keeping its position, and appends the pair at the end otherwise.
A real JS object never holds a key twice, so on key-unique lists this is
exactly the source semantics. -/
def setKey {α : Type} : List (String × α) → String → α → List (String × α)
  | [], k, v => [(k, v)]
  | p :: rest, k, v => if p.1 = k then (k, v) :: rest else p :: setKey rest k v

/-- JS object property lookup m[k]. -/
def getKey {α : Type} (m : List (String × α)) (k : String) : Option α :=
  (m.find? (fun p => p.1 == k)).map Prod.snd

/-- JS object spread: the expression with a spread of a followed by a spread
of b builds a new object holding all entries of a and then assigns every
entry of b into it, later entries overriding earlier ones. -/
def spread2 {α : Type} (a b : List (String × α)) : List (String × α) :=
  b.foldl (fun acc p => setKey acc p.1 p.2) a

/-- The per-client configuration document of installServerForClient.ts:
a field mcpServers mapping server names to server launch configs (the
launch config type α stays abstract, the source declares it any), and the
remaining parts of the document outside mcpServers, abstracted as β. -/
structure ClientConfig (α β : Type) where
  mcpServers : List (String × α)
  rest : β
  deriving DecidableEq

/-- installServerForClient (src/commands/installServerForClient.ts lines
13 to 36), pure core: given the config read by readConfig, it assigns
config.mcpServers[getServerName qualifiedName] = serverConfig and the
result is what writeConfig receives. getServerName lives outside the
given sources, so it is kept as an abstract parameter. -/
def installServerForClient {α β : Type} (getServerName : String → String)
    (qualifiedName : String) (serverConfig : α)
    (config : ClientConfig α β) : ClientConfig α β :=
  let serverName := getServerName qualifiedName
  { mcpServers := setKey config.mcpServers serverName serverConfig,
    rest := config.rest }

/-- installServerForClient with the two fallible I/O calls made explicit:
readResult is what readConfig client produces (a config or a thrown
error), writeResult is what writeConfig does when invoked. The function
returns the outcome together with the list of configs passed to
writeConfig. The source has no try/catch, so a read error short-circuits
before writeConfig and a write error propagates. -/
def installServerForClientRun {α β ε : Type} (getServerName : String → String)
    (qualifiedName : String) (serverConfig : α)
    (readResult : Except ε (ClientConfig α β)) (writeResult : Except ε Unit) :
    Except ε (ClientConfig α β) × List (ClientConfig α β) :=
  match readResult with
  | .error e => (.error e, [])
  | .ok config =>
      let newConfig :=
        installServerForClient getServerName qualifiedName serverConfig config
      match writeResult with
      | .error e => (.error e, [newConfig])
      | .ok _ => (.ok newConfig, [newConfig])

theorem getKey_nil {α : Type} (k : String) : getKey ([] : List (String × α)) k = none := rfl

theorem getKey_cons {α : Type} (p : String × α) (m : List (String × α)) (k : String) :
    getKey (p :: m) k = if p.1 = k then some p.2 else getKey m k := by
  by_cases h : p.1 = k
  · simp [getKey, List.find?_cons_of_pos, h]
  · simp [getKey, List.find?_cons_of_neg, h]

theorem getKey_setKey {α : Type} (m : List (String × α)) (k : String) (v : α)
    (k' : String) :
    getKey (setKey m k v) k' = if k' = k then some v else getKey m k' := by
  induction m with
  | nil =>
      show getKey [(k, v)] k' = _
      rw [getKey_cons]
      by_cases h : k' = k
      · simp [h]
      · have h2 : ¬k = k' := fun hh => h hh.symm
        simp [h, h2, getKey_nil]
  | cons p rest ih =>
      rw [setKey]
      by_cases hp : p.1 = k
      · by_cases h : k' = k
        · simp [hp, h, getKey_cons]
        · have h2 : ¬k = k' := fun hh => h hh.symm
          have h3 : ¬p.1 = k' := fun hh => h (hp.symm.trans hh).symm
          simp [hp, h, h2, h3, getKey_cons]
      · by_cases h : k' = k
        · subst h
          have h3 : ¬p.1 = k' := hp
          simp [hp, h3, getKey_cons, ih]
        · by_cases hpk : p.1 = k'
          · simp [hp, h, hpk, getKey_cons, ih]
          · simp [hp, h, hpk, getKey_cons, ih]

theorem setKey_of_getKey_none {α : Type} (m : List (String × α)) (k : String) (v : α)
    (h : getKey m k = none) : setKey m k v = m ++ [(k, v)] := by
  induction m with
  | nil => simp [setKey]
  | cons p rest ih =>
      rw [getKey_cons] at h
      by_cases hp : p.1 = k
      · simp [hp] at h
      · simp [hp] at h
        simp [setKey, hp, ih h]

theorem setKey_keys_of_getKey_some {α : Type} (m : List (String × α)) (k : String)
    (v : α) (h : (getKey m k).isSome = true) :
    (setKey m k v).map Prod.fst = m.map Prod.fst := by
  induction m with
  | nil => simp [getKey_nil] at h
  | cons p rest ih =>
      rw [getKey_cons] at h
      by_cases hp : p.1 = k
      · simp [setKey, hp]
      · simp [hp] at h
        simp [setKey, hp, ih h]

/-- Connection metadata from the registry, as consumed by runtime.ts:
a type tag, an optional stdio launch command, and for http connections an
optional deployment URL whose presence models the JS membership test for
the deploymentUrl property. -/
structure ConnectionInfo where
  type : String
  stdioFunction : Option String
  deploymentUrl : Option String
  deriving DecidableEq

/-- isUVRequired (runtime.ts lines 66 to 76): stdio connection whose
stdioFunction, when present, includes the text uvx. The optional chaining
in the source yields a falsy value when stdioFunction is absent. -/
def isUVRequired (connection : ConnectionInfo) : Bool :=
  connection.type == "stdio" &&
    (match connection.stdioFunction with
     | some s => containsSub s "uvx"
     | none => false)

/-- isBunRequired (runtime.ts lines 136 to 146): stdio connection whose
stdioFunction, when present, includes the text bunx. -/
def isBunRequired (connection : ConnectionInfo) : Bool :=
  connection.type == "stdio" &&
    (match connection.stdioFunction with
     | some s => containsSub s "bunx"
     | none => false)

/-- The server shape taken by isRemote: a connections list and an optional
remote flag. -/
structure Server where
  connections : List ConnectionInfo
  remote : Option Bool
  deriving DecidableEq

/-- isRemote (runtime.ts lines 210 to 219): some connection has type http
and carries a deploymentUrl, and the remote flag is not strictly false. -/
def isRemote (server : Server) : Bool :=
  server.connections.any
      (fun conn => conn.type == "http" && conn.deploymentUrl.isSome)
    && server.remote != some false

/-- getRuntimeEnvironment (runtime.ts lines 148 to 157): object spread of
the default environment followed by baseEnv. getDefaultEnvironment comes
from the MCP SDK outside this repository, so its result defaultEnv is a
parameter. The TS default argument makes an omitted baseEnv the empty
object. -/
def getRuntimeEnvironment (defaultEnv baseEnv : List (String × String)) :
    List (String × String) :=
  spread2 defaultEnv baseEnv

/-- The value of process.platform as the installers read it: win32 or
anything else. -/
inductive Platform where
  | win32 : Platform
  | other : Platform
  deriving DecidableEq

/-- One execAsync call: resolves when ok is true, otherwise rejects with
the command text standing in for the thrown error. -/
def execAsync (ok : Bool) (cmd : String) : Except String Unit :=
  if ok then .ok () else .error cmd

def uvPsCmd : String :=
  "powershell -ExecutionPolicy ByPass -c \"irm https://astral.sh/uv/install.ps1 | iex\""

def uvCurlCmd : String := "curl -LsSf https://astral.sh/uv/install.sh | sh"

def uvWgetCmd : String := "wget -qO- https://astral.sh/uv/install.sh | sh"

def bunPsCmd : String := "powershell -c \"irm bun.sh/install.ps1|iex\""

def bunBrewCmd : String := "brew install oven-sh/bun/bun"

def bunCurlCmd : String := "curl -fsSL https://bun.sh/install | bash"

/-- Environment of one UV check-and-install flow: whether uvx answers
--version, the answer the user gives to the inquirer prompt, the platform,
and whether each install command would succeed. -/
structure UVEnv where
  uvxOk : Bool
  consent : Bool
  platform : Platform
  psOk : Bool
  curlOk : Bool
  wgetOk : Bool
  deriving DecidableEq

/-- checkUVInstalled (runtime.ts lines 13 to 20): execAsync in a try/catch
mapping success to true and a thrown error to false. -/
def checkUVInstalled (e : UVEnv) : Bool :=
  match execAsync e.uvxOk "uvx --version" with
  | .ok _ => true
  | .error _ => false

/-- promptForUVInstall (runtime.ts lines 22 to 64): on decline, warn and
return false; otherwise run the platform install command, on win32 the
PowerShell one-liner, elsewhere curl with wget attempted in the inner
catch exactly when curl fails, the outer catch turning any remaining
failure into a false return. The second component lists the install
commands handed to execAsync, in order. -/
def promptForUVInstall (e : UVEnv) : Except String Bool × List String :=
  if !e.consent then (.ok false, [])
  else
    match e.platform with
    | Platform.win32 =>
        match execAsync e.psOk uvPsCmd with
        | .ok _ => (.ok true, [uvPsCmd])
        | .error _ => (.ok false, [uvPsCmd])
    | Platform.other =>
        match execAsync e.curlOk uvCurlCmd with
        | .ok _ => (.ok true, [uvCurlCmd])
        | .error _ =>
            match execAsync e.wgetOk uvWgetCmd with
            | .ok _ => (.ok true, [uvCurlCmd, uvWgetCmd])
            | .error _ => (.ok false, [uvCurlCmd, uvWgetCmd])

/-- Environment of one Bun check-and-install flow. -/
structure BunEnv where
  bunOk : Bool
  consent : Bool
  platform : Platform
  psOk : Bool
  brewOk : Bool
  curlOk : Bool
  deriving DecidableEq

/-- checkBunInstalled (runtime.ts lines 78 to 85). -/
def checkBunInstalled (e : BunEnv) : Bool :=
  match execAsync e.bunOk "bun --version" with
  | .ok _ => true
  | .error _ => false

/-- promptForBunInstall (runtime.ts lines 87 to 134): on decline, warn and
return false; otherwise on win32 the PowerShell one-liner, elsewhere
Homebrew with the curl pipe attempted in the inner catch exactly when
Homebrew fails, the outer catch turning any remaining failure into a
false return. -/
def promptForBunInstall (e : BunEnv) : Except String Bool × List String :=
  if !e.consent then (.ok false, [])
  else
    match e.platform with
    | Platform.win32 =>
        match execAsync e.psOk bunPsCmd with
        | .ok _ => (.ok true, [bunPsCmd])
        | .error _ => (.ok false, [bunPsCmd])
    | Platform.other =>
        match execAsync e.brewOk bunBrewCmd with
        | .ok _ => (.ok true, [bunBrewCmd])
        | .error _ =>
            match execAsync e.curlOk bunCurlCmd with
            | .ok _ => (.ok true, [bunBrewCmd, bunCurlCmd])
            | .error _ => (.ok false, [bunBrewCmd, bunCurlCmd])

/-- Observable outcome of an ensure flow: whether the final warning that
the server might fail to launch was printed. -/
structure EnsureOutcome where
  warned : Bool
  deriving DecidableEq

/-- ensureUVInstalled (runtime.ts lines 164 to 179): nothing to do unless
the connection requires UV; if the check fails, prompt, and when the
prompt reports not installed, print the warning. The Except models the
absence of any try/catch here: anything the prompt threw would propagate. -/
def ensureUVInstalled (connection : ConnectionInfo) (e : UVEnv) :
    Except String EnsureOutcome :=
  if isUVRequired connection then
    if checkUVInstalled e then .ok ⟨false⟩
    else
      match (promptForUVInstall e).1 with
      | .error err => .error err
      | .ok installed => if installed then .ok ⟨false⟩ else .ok ⟨true⟩
  else .ok ⟨false⟩

/-- ensureBunInstalled (runtime.ts lines 186 to 203), mirror image of
ensureUVInstalled. -/
def ensureBunInstalled (connection : ConnectionInfo) (e : BunEnv) :
    Except String EnsureOutcome :=
  if isBunRequired connection then
    if checkBunInstalled e then .ok ⟨false⟩
    else
      match (promptForBunInstall e).1 with
      | .error err => .error err
      | .ok installed => if installed then .ok ⟨false⟩ else .ok ⟨true⟩
  else .ok ⟨false⟩

/-- JS truthiness of an optional string: defined and not empty. -/
def strTruthy : Option String → Bool
  | none => false
  | some s => s != ""

/-- Environment of ensureApiKey: what getApiKey returns from the local
config, what the user would type at the prompt, and whether setApiKey
would succeed. -/
structure ApiKeyEnv where
  savedKey : Option String
  promptedKey : String
  saveSucceeds : Bool
  deriving DecidableEq

/-- Observable outcome of ensureApiKey: the returned key, every argument
passed to setApiKey, whether the interactive prompt ran, and whether the
could-not-save warning was printed. -/
structure ApiKeyResult where
  returnedKey : String
  setApiKeyCalls : List String
  prompted : Bool
  warned : Bool
  deriving DecidableEq

/-- ensureApiKey (runtime.ts lines 271 to 297): a truthy command-line key
is returned at once; otherwise a truthy saved key is returned; otherwise
the user is prompted and the entered key is saved via setApiKey, a failed
save only producing a warning. -/
def ensureApiKey (apiKey : Option String) (env : ApiKeyEnv) : ApiKeyResult :=
  if strTruthy apiKey then
    { returnedKey := apiKey.getD "", setApiKeyCalls := [],
      prompted := false, warned := false }
  else if strTruthy env.savedKey then
    { returnedKey := env.savedKey.getD "", setApiKeyCalls := [],
      prompted := false, warned := false }
  else
    { returnedKey := env.promptedKey, setApiKeyCalls := [env.promptedKey],
      prompted := true, warned := !env.saveSucceeds }

theorem spread2_nil {α : Type} (a : List (String × α)) : spread2 a [] = a := rfl

theorem spread2_cons {α : Type} (a : List (String × α)) (p : String × α)
    (b : List (String × α)) : spread2 a (p :: b) = spread2 (setKey a p.1 p.2) b := rfl

theorem getKey_eq_none_of_not_mem {α : Type} (m : List (String × α)) (k : String)
    (h : k ∉ m.map Prod.fst) : getKey m k = none := by
  induction m with
  | nil => rfl
  | cons p rest ih =>
      simp only [List.map_cons, List.mem_cons] at h
      push_neg at h
      rw [getKey_cons, if_neg (fun hh => h.1 hh.symm), ih h.2]

theorem getKey_setKey_isSome {α : Type} (a : List (String × α)) (k1 : String)
    (v : α) (k : String) (h : (getKey a k).isSome = true) :
    (getKey (setKey a k1 v) k).isSome = true := by
  rw [getKey_setKey]
  by_cases hk : k = k1 <;> simp [hk, h]

theorem getKey_spread2_isSome {α : Type} (b a : List (String × α)) (k : String)
    (h : (getKey a k).isSome = true) :
    (getKey (spread2 a b) k).isSome = true := by
  induction b generalizing a with
  | nil => exact h
  | cons p b' ih =>
      rw [spread2_cons]
      exact ih _ (getKey_setKey_isSome a p.1 p.2 k h)

theorem getKey_spread2_of_none {α : Type} (b : List (String × α)) (k : String)
    (h : getKey b k = none) (a : List (String × α)) :
    getKey (spread2 a b) k = getKey a k := by
  revert h
  induction b generalizing a with
  | nil => intro _; rfl
  | cons p b' ih =>
      intro h
      rw [getKey_cons] at h
      by_cases hp : p.1 = k
      · simp [hp] at h
      · rw [if_neg hp] at h
        rw [spread2_cons, ih _ h, getKey_setKey, if_neg (fun hh => hp hh.symm)]

theorem getKey_spread2_of_some {α : Type} (b : List (String × α)) (k : String)
    (v : α) (hnd : (b.map Prod.fst).Nodup) (h : getKey b k = some v)
    (a : List (String × α)) :
    getKey (spread2 a b) k = some v := by
  revert hnd h
  induction b generalizing a with
  | nil => intro _ h; simp [getKey_nil] at h
  | cons p b' ih =>
      intro hnd h
      simp only [List.map_cons, List.nodup_cons] at hnd
      rw [getKey_cons] at h
      rw [spread2_cons]
      by_cases hp : p.1 = k
      · rw [if_pos hp] at h
        have hnone : getKey b' k = none :=
          getKey_eq_none_of_not_mem b' k (fun hk => hnd.1 (hp ▸ hk))
        rw [getKey_spread2_of_none b' k hnone, getKey_setKey, if_pos hp.symm, h]
      · rw [if_neg hp] at h
        exact ih _ hnd.2 h

/-- Whether the platform install sequence of the UV installer succeeds:
PowerShell on win32, curl or the wget fallback elsewhere. -/
def uvInstallSucceeds (e : UVEnv) : Bool :=
  match e.platform with
  | Platform.win32 => e.psOk
  | Platform.other => e.curlOk || e.wgetOk

/-- Whether the platform install sequence of the Bun installer succeeds:
PowerShell on win32, Homebrew or the curl fallback elsewhere. -/
def bunInstallSucceeds (e : BunEnv) : Bool :=
  match e.platform with
  | Platform.win32 => e.psOk
  | Platform.other => e.brewOk || e.curlOk

theorem promptForUVInstall_fst (e : UVEnv) :
    (promptForUVInstall e).1 = Except.ok (e.consent && uvInstallSucceeds e) := by
  obtain ⟨u, c, p, ps, cu, wg⟩ := e
  cases c <;> cases p <;> cases ps <;> cases cu <;> cases wg <;> rfl

theorem promptForBunInstall_fst (e : BunEnv) :
    (promptForBunInstall e).1 = Except.ok (e.consent && bunInstallSucceeds e) := by
  obtain ⟨u, c, p, ps, br, cu⟩ := e
  cases c <;> cases p <;> cases ps <;> cases br <;> cases cu <;> rfl

/-- C1: for every normalization function, qualifiedName, serverConfig and
previously read configuration, installServerForClient writes back a
configuration whose mcpServers entry at the normalized server name is
exactly the supplied serverConfig, replacing any previous entry wholesale
with no merge of sub-fields; the config value itself stays fully abstract,
so no validation of its shape happens before writing. -/
theorem C1_install_overwrites_wholesale {α β : Type}
    (getServerName : String → String) (qualifiedName : String)
    (serverConfig : α) (config : ClientConfig α β) :
    getKey (installServerForClient getServerName qualifiedName serverConfig
        config).mcpServers (getServerName qualifiedName) = some serverConfig := by
  simp [installServerForClient, getKey_setKey]

/-- C2: installServerForClient changes at most the single mcpServers key
equal to the normalized server name: the document outside mcpServers is
written back unchanged, every other key keeps its value, a missing name is
added as exactly one new key at the end, and an existing name leaves the
key list unchanged. -/
theorem C2_install_frame {α β : Type} (getServerName : String → String)
    (qualifiedName : String) (serverConfig : α) (config : ClientConfig α β) :
    (installServerForClient getServerName qualifiedName serverConfig config).rest
        = config.rest
    ∧ (∀ k, k ≠ getServerName qualifiedName →
        getKey (installServerForClient getServerName qualifiedName serverConfig
          config).mcpServers k = getKey config.mcpServers k)
    ∧ (getKey config.mcpServers (getServerName qualifiedName) = none →
        (installServerForClient getServerName qualifiedName serverConfig
            config).mcpServers
          = config.mcpServers ++ [(getServerName qualifiedName, serverConfig)])
    ∧ ((getKey config.mcpServers (getServerName qualifiedName)).isSome = true →
        (installServerForClient getServerName qualifiedName serverConfig
            config).mcpServers.map Prod.fst
          = config.mcpServers.map Prod.fst) := by
  refine ⟨rfl, ?_, ?_, ?_⟩
  · intro k hk
    simp [installServerForClient, getKey_setKey, hk]
  · intro h
    simp [installServerForClient, setKey_of_getKey_none _ _ serverConfig h]
  · intro h
    simp [installServerForClient, setKey_keys_of_getKey_some _ _ serverConfig h]

theorem C2_install_frame_witness :
    getKey (installServerForClient (fun s => s) "a" (1 : Nat)
        (ClientConfig.mk [("b", (2 : Nat))] (0 : Nat))).mcpServers "b" = some 2 :=
  (C2_install_frame (fun s => s) "a" 1 (ClientConfig.mk [("b", 2)] 0)).2.1 "b"
    (by decide)

/-- C3: isRemote returns true exactly when some connection has type http
and carries a deploymentUrl and the remote flag is not explicitly false;
an absent or true remote flag does not by itself make the server remote,
and remote set to false forces the result false. -/
theorem C3_isRemote_iff (server : Server) :
    isRemote server = true ↔
      ((∃ conn ∈ server.connections,
          conn.type = "http" ∧ conn.deploymentUrl.isSome = true)
        ∧ server.remote ≠ some false) := by
  simp [isRemote, List.any_eq_true, Bool.and_eq_true, beq_iff_eq, bne_iff_ne,
    and_assoc]

theorem C3_isRemote_iff_witness :
    isRemote (Server.mk [ConnectionInfo.mk "http" none (some "u")] none) = true :=
  (C3_isRemote_iff (Server.mk [ConnectionInfo.mk "http" none (some "u")] none)).mpr
    ⟨⟨ConnectionInfo.mk "http" none (some "u"), by simp, rfl, rfl⟩, by simp⟩

/-- C4: isUVRequired holds exactly for stdio connections whose
stdioFunction includes the text uvx, isBunRequired exactly for stdio
connections whose stdioFunction includes the text bunx; any other
connection, non-stdio, without a stdioFunction or without the matching
text, requires neither runtime. -/
theorem C4_runtime_flags (connection : ConnectionInfo) :
    (isUVRequired connection = true ↔
      connection.type = "stdio" ∧
        ∃ s, connection.stdioFunction = some s ∧ containsSub s "uvx" = true)
    ∧ (isBunRequired connection = true ↔
      connection.type = "stdio" ∧
        ∃ s, connection.stdioFunction = some s ∧ containsSub s "bunx" = true) := by
  obtain ⟨t, sf, du⟩ := connection
  cases sf with
  | none => simp [isUVRequired, isBunRequired]
  | some s => simp [isUVRequired, isBunRequired, Bool.and_eq_true, beq_iff_eq]

theorem C4_runtime_flags_witness :
    isUVRequired (ConnectionInfo.mk "stdio" (some "uvx tool") none) = true :=
  (C4_runtime_flags (ConnectionInfo.mk "stdio" (some "uvx tool") none)).1.mpr
    ⟨rfl, "uvx tool", rfl, by decide⟩

/-- C5: a non-empty API key given on the command line is returned by
ensureApiKey unchanged, setApiKey is never called, no prompt runs and no
warning is printed, so a saved key is never overwritten by a
command-line-supplied key. -/
theorem C5_cli_key_never_saved (k : String) (env : ApiKeyEnv) (hk : k ≠ "") :
    ensureApiKey (some k) env = ApiKeyResult.mk k [] false false := by
  have ht : strTruthy (some k) = true := by simp [strTruthy, hk]
  simp [ensureApiKey, ht]

theorem C5_cli_key_never_saved_witness :
    ensureApiKey (some "abc") (ApiKeyEnv.mk (some "saved") "typed" true) =
      ApiKeyResult.mk "abc" [] false false :=
  C5_cli_key_never_saved "abc" (ApiKeyEnv.mk (some "saved") "typed" true)
    (by decide)

/-- C6 counterexample: promptForBunInstall on a non-Windows platform with
consent given and every command succeeding runs exactly the Homebrew
command, which is neither a curl download piped to a shell nor a wget
fallback, contradicting the claim that both installers use curl with a
wget fallback outside Windows. -/
theorem C6_counterexample :
    (promptForBunInstall (BunEnv.mk false true Platform.other true true true)).2
        = [bunBrewCmd]
    ∧ containsSub bunBrewCmd "curl" = false
    ∧ containsSub bunBrewCmd "wget" = false := by
  refine ⟨rfl, ?_, ?_⟩ <;> decide

/-- C6 amended: after consent, promptForUVInstall selects the PowerShell
one-liner on win32 and otherwise curl piped to a shell with wget attempted
exactly when curl fails, while promptForBunInstall selects the PowerShell
one-liner on win32 and otherwise Homebrew with the curl pipe attempted
exactly when Homebrew fails. -/
theorem C6_install_command_selection (eu : UVEnv) (eb : BunEnv)
    (hu : eu.consent = true) (hb : eb.consent = true) :
    (eu.platform = Platform.win32 → (promptForUVInstall eu).2 = [uvPsCmd])
    ∧ (eu.platform = Platform.other → (promptForUVInstall eu).2 =
        if eu.curlOk then [uvCurlCmd] else [uvCurlCmd, uvWgetCmd])
    ∧ (eb.platform = Platform.win32 → (promptForBunInstall eb).2 = [bunPsCmd])
    ∧ (eb.platform = Platform.other → (promptForBunInstall eb).2 =
        if eb.brewOk then [bunBrewCmd] else [bunBrewCmd, bunCurlCmd]) := by
  obtain ⟨u, c, p, ps, cu, wg⟩ := eu
  obtain ⟨u2, c2, p2, ps2, br2, cu2⟩ := eb
  simp only at hu hb
  subst hu hb
  refine ⟨?_, ?_, ?_, ?_⟩ <;> intro hp <;> simp only at hp <;> subst hp
  · cases ps <;> rfl
  · cases cu <;> cases wg <;> rfl
  · cases ps2 <;> rfl
  · cases br2 <;> cases cu2 <;> rfl

theorem C6_install_command_selection_witness :
    (promptForUVInstall (UVEnv.mk false true Platform.other false false false)).2
        = [uvCurlCmd, uvWgetCmd] :=
  (C6_install_command_selection
      (UVEnv.mk false true Platform.other false false false)
      (BunEnv.mk false true Platform.other false false false) rfl rfl).2.1 rfl

/-- C7: when the required runtime check fails and the user declines or the
platform install sequence fails, ensureUVInstalled and ensureBunInstalled
return normally through the ok branch, warning exactly when the runtime
was required; no error reaches the caller. -/
theorem C7_ensure_absorbs_failures (cu cb : ConnectionInfo)
    (eu : UVEnv) (eb : BunEnv)
    (hu1 : checkUVInstalled eu = false)
    (hu2 : eu.consent = false ∨ uvInstallSucceeds eu = false)
    (hb1 : checkBunInstalled eb = false)
    (hb2 : eb.consent = false ∨ bunInstallSucceeds eb = false) :
    ensureUVInstalled cu eu = Except.ok (EnsureOutcome.mk (isUVRequired cu))
    ∧ ensureBunInstalled cb eb = Except.ok (EnsureOutcome.mk (isBunRequired cb)) := by
  have hu : (eu.consent && uvInstallSucceeds eu) = false := by
    rcases hu2 with h | h <;> simp [h]
  have hb : (eb.consent && bunInstallSucceeds eb) = false := by
    rcases hb2 with h | h <;> simp [h]
  constructor
  · cases hreq : isUVRequired cu
    · simp [ensureUVInstalled, hreq]
    · simp [ensureUVInstalled, hreq, hu1, promptForUVInstall_fst, hu]
  · cases hreq : isBunRequired cb
    · simp [ensureBunInstalled, hreq]
    · simp [ensureBunInstalled, hreq, hb1, promptForBunInstall_fst, hb]

theorem C7_ensure_absorbs_failures_witness :
    ensureUVInstalled (ConnectionInfo.mk "stdio" (some "uvx a") none)
        (UVEnv.mk false false Platform.other false false false)
      = Except.ok (EnsureOutcome.mk
          (isUVRequired (ConnectionInfo.mk "stdio" (some "uvx a") none)))
    ∧ ensureBunInstalled (ConnectionInfo.mk "stdio" (some "bunx a") none)
        (BunEnv.mk false false Platform.other false false false)
      = Except.ok (EnsureOutcome.mk
          (isBunRequired (ConnectionInfo.mk "stdio" (some "bunx a") none))) :=
  C7_ensure_absorbs_failures
    (ConnectionInfo.mk "stdio" (some "uvx a") none)
    (ConnectionInfo.mk "stdio" (some "bunx a") none)
    (UVEnv.mk false false Platform.other false false false)
    (BunEnv.mk false false Platform.other false false false)
    rfl (Or.inl rfl) rfl (Or.inl rfl)

/-- C8: installServerForClient wraps no try/catch around the config I/O:
when readConfig throws, the same error is the outcome and writeConfig is
never invoked, and when writeConfig throws, its error is the outcome after
the single write attempt. -/
theorem C8_io_errors_propagate {α β ε : Type} (getServerName : String → String)
    (qualifiedName : String) (serverConfig : α) (e : ε)
    (config : ClientConfig α β) (writeResult : Except ε Unit) :
    installServerForClientRun getServerName qualifiedName serverConfig
        (Except.error e) writeResult
      = (Except.error e, ([] : List (ClientConfig α β)))
    ∧ installServerForClientRun getServerName qualifiedName serverConfig
        (Except.ok config) (Except.error e)
      = (Except.error e,
          [installServerForClient getServerName qualifiedName serverConfig config]) :=
  ⟨rfl, rfl⟩

/-- C9: ensureApiKey treats an empty command-line key like an absent one:
the empty string takes the same path as no argument, the prompt runs
exactly when no truthy saved key exists, a truthy saved key is returned
without prompting or saving, and a non-empty argument is returned as-is. -/
theorem C9_empty_key_falls_through (env : ApiKeyEnv) :
    ensureApiKey (some "") env = ensureApiKey none env
    ∧ ((ensureApiKey none env).prompted = true ↔ strTruthy env.savedKey = false)
    ∧ (strTruthy env.savedKey = true →
        ensureApiKey (some "") env =
          ApiKeyResult.mk (env.savedKey.getD "") [] false false)
    ∧ (∀ k, k ≠ "" → (ensureApiKey (some k) env).returnedKey = k) := by
  have hempty : strTruthy (some "") = false := by decide
  have hnone : strTruthy none = false := rfl
  refine ⟨?_, ?_, ?_, ?_⟩
  · simp [ensureApiKey, hempty, hnone]
  · cases h : strTruthy env.savedKey <;> simp [ensureApiKey, hnone, h]
  · intro h
    simp [ensureApiKey, hempty, h]
  · intro k hk
    have hk2 : strTruthy (some k) = true := by simp [strTruthy, hk]
    simp [ensureApiKey, hk2]

theorem C9_empty_key_falls_through_witness :
    ensureApiKey (some "") (ApiKeyEnv.mk (some "s") "typed" true) =
      ApiKeyResult.mk "s" [] false false :=
  (C9_empty_key_falls_through (ApiKeyEnv.mk (some "s") "typed" true)).2.2.1
    (by decide)

/-- C10: getRuntimeEnvironment keeps every key of the default environment
and every key of baseEnv, baseEnv wins on keys present in both (stated for
key-unique baseEnv, as JS objects are), and an empty baseEnv returns the
default environment unchanged. -/
theorem C10_runtime_env_merge (defaultEnv baseEnv : List (String × String))
    (hnd : (baseEnv.map Prod.fst).Nodup) :
    (∀ k, (getKey defaultEnv k).isSome = true →
        (getKey (getRuntimeEnvironment defaultEnv baseEnv) k).isSome = true)
    ∧ (∀ k v, getKey baseEnv k = some v →
        getKey (getRuntimeEnvironment defaultEnv baseEnv) k = some v)
    ∧ (∀ k, (getKey baseEnv k).isSome = true →
        (getKey (getRuntimeEnvironment defaultEnv baseEnv) k).isSome = true)
    ∧ getRuntimeEnvironment defaultEnv [] = defaultEnv := by
  refine ⟨?_, ?_, ?_, rfl⟩
  · intro k h
    exact getKey_spread2_isSome baseEnv defaultEnv k h
  · intro k v h
    exact getKey_spread2_of_some baseEnv k v hnd h defaultEnv
  · intro k h
    obtain ⟨v, hv⟩ := Option.isSome_iff_exists.1 h
    have := getKey_spread2_of_some baseEnv k v hnd hv defaultEnv
    rw [getRuntimeEnvironment, this]
    rfl

theorem C10_runtime_env_merge_witness :
    getKey (getRuntimeEnvironment [("PATH", "a")] [("PATH", "b")]) "PATH"
      = some "b" :=
  (C10_runtime_env_merge [("PATH", "a")] [("PATH", "b")] (by simp)).2.1 "PATH" "b"
    (by decide)

end McpCli
